import Mathlib

/-!
Verification of the GT class-calendar generator (`src/app.py`).

The development shallowly embeds the two core components of the program:

* `extract_semester_dates_and_holidays` — the regex-based date/holiday
  extractor operating on the document text;
* `generate_ics` — the recurring-event generator.

Calendar dates and naive datetimes are modelled as Python `toordinal`
values (`Nat`, day 1 = 0001-01-01 of the proleptic Gregorian calendar),
so `date.weekday()` is `(ord - 1) % 7` with Monday = 0.  Times of day are
minutes since midnight (`Nat`); only their order matters to the program.
-/

namespace GtTt

/-! ## Python `datetime` date arithmetic (proleptic Gregorian `toordinal`) -/

def isLeap (y : Nat) : Bool :=
  y % 4 == 0 && (y % 100 != 0 || y % 400 == 0)

def daysInMonth (y m : Nat) : Nat :=
  if m = 2 then (if isLeap y then 29 else 28)
  else if m = 4 ∨ m = 6 ∨ m = 9 ∨ m = 11 then 30
  else 31

def daysBeforeMonth (y m : Nat) : Nat :=
  (List.range m).foldl (fun acc i => if 1 ≤ i then acc + daysInMonth y i else acc) 0

def daysBeforeYear (y : Nat) : Nat :=
  (y - 1) * 365 + (y - 1) / 4 + (y - 1) / 400 - (y - 1) / 100

/-- Python `datetime(y, m, d).toordinal()`: day number with
`toOrdinal 1 1 1 = 1`. -/
def toOrdinal (y m d : Nat) : Nat :=
  daysBeforeYear y + daysBeforeMonth y m + d

/-- Python `date.weekday()`: Monday = 0 … Sunday = 6. -/
def pyWeekday (ord : Nat) : Nat := (ord + 6) % 7

/-- Python `date.strftime("%A")`. -/
def weekdayName (ord : Nat) : String :=
  (["Monday", "Tuesday", "Wednesday", "Thursday", "Friday", "Saturday",
    "Sunday"]).getD (pyWeekday ord) ""

/-! ## Data model of the generator (`generate_ics`, src/app.py lines 97-130) -/

/-- One entry of `course_data` as built by the input form: `days` is the
multiselect's list of weekday symbols, times are minutes since midnight. -/
structure Course where
  subject : String
  teacher : String
  location : String
  days : List String
  start_time : Nat
  end_time : Nat
  deriving Repr, DecidableEq

/-- An `ics` `Event` as populated by `generate_ics`: begin/end are the
`tz.localize(datetime.combine(current_date, time))` timestamps, modelled
as (timezone name, date ordinal, minutes-of-day). -/
structure Event where
  name : String
  begin_date : Nat
  begin_time : Nat
  end_date : Nat
  end_time : Nat
  tz : String
  location : String
  description : String
  deriving Repr, DecidableEq

/-- The `st.warning(...)` message emitted for an invalid occurrence
(src/app.py line 116). -/
def warningMsg (subject : String) (ord : Nat) : String :=
  "⚠️ Skipping " ++ subject ++ " on " ++ weekdayName ord ++
    " because end time is before or equal to start time."

/-- The event constructed at src/app.py lines 120-126 for the occurrence
date `ord` of `course`. -/
def mkEvent (tz : String) (course : Course) (ord : Nat) : Event :=
  { name := course.subject
    begin_date := ord
    begin_time := course.start_time
    end_date := ord
    end_time := course.end_time
    tz := tz
    location := course.location
    description := course.subject ++ " - " ++ course.teacher }

/-- The fixed weekday-symbol table `["MO", "TU", "WE", "TH", "FR"]`. -/
def weekdayCodes : List String := ["MO", "TU", "WE", "TH", "FR"]

/-- The `while current_date <= end_date` loop of `generate_ics`
(src/app.py lines 107-128), returning the events added to the calendar
and the warnings shown, each in emission order. -/
def genLoop (tz : String) (course : Course) (holidays : List Nat)
    (end_ : Nat) (current : Nat) : List Event × List String :=
  if current ≤ end_ then
    if current ∈ holidays then
      genLoop tz course holidays end_ (current + 7)
    else if course.end_time ≤ course.start_time then
      let rest := genLoop tz course holidays end_ (current + 7)
      (rest.1, warningMsg course.subject current :: rest.2)
    else
      let rest := genLoop tz course holidays end_ (current + 7)
      (mkEvent tz course current :: rest.1, rest.2)
  else ([], [])
termination_by end_ + 1 - current
decreasing_by all_goals omega

/-- `days_ahead = (weekday_int - start_date.weekday() + 7) % 7`
(src/app.py line 104); written over `Nat` with the `+ 7` keeping the
difference non-negative, exactly as Python's `%` does on the `int` value. -/
def daysAhead (start_ : Nat) (day : String) : Nat :=
  (weekdayCodes.indexOf day + 7 - pyWeekday start_) % 7

/-- `current_date = start_date + timedelta(days=days_ahead)`
(src/app.py line 105): the first candidate occurrence for `day`. -/
def firstOccurrence (start_ : Nat) (day : String) : Nat :=
  start_ + daysAhead start_ day

/-- Body of `for day in course['days']` (src/app.py lines 102-128). -/
def genDay (tz : String) (course : Course) (holidays : List Nat)
    (start_ end_ : Nat) (day : String) : List Event × List String :=
  genLoop tz course holidays end_ (firstOccurrence start_ day)

/-- Sequential concatenation of per-iteration outputs, preserving
emission order. -/
def joinRuns (runs : List (List Event × List String)) :
    List Event × List String :=
  runs.foldr (fun p acc => (p.1 ++ acc.1, p.2 ++ acc.2)) ([], [])

/-- Body of `for course in course_data` (src/app.py lines 101-128). -/
def genCourse (tz : String) (holidays : List Nat) (start_ end_ : Nat)
    (course : Course) : List Event × List String :=
  joinRuns (course.days.map (genDay tz course holidays start_ end_))

/-- `generate_ics` (src/app.py lines 97-130).  `tzdb` stands for the
`pytz` zone table; `pytz.timezone` raises `UnknownTimeZoneError(zone)` on
an unknown name, modelled as `.error timezone_str`, and this happens at
line 99 before any iteration.  On success the result carries the events
added to the calendar and the warnings, each in emission order. -/
def generate_ics (tzdb : List String) (start_date end_date : Nat)
    (course_data : List Course) (timezone_str : String)
    (holidays : List Nat) : Except String (List Event × List String) :=
  if timezone_str ∈ tzdb then
    .ok (joinRuns (course_data.map
      (genCourse timezone_str holidays start_date end_date)))
  else
    .error timezone_str

/-- The occurrence dates the loop visits: `first, first + 7, …` while
`≤ end_`. -/
def occDates (end_ current : Nat) : List Nat :=
  if current ≤ end_ then current :: occDates end_ (current + 7) else []
termination_by end_ + 1 - current
decreasing_by all_goals omega

/-! ## The extractor (`extract_semester_dates_and_holidays`, lines 13-44)

The Python code matches `re` patterns of the shape
`MARKER.*?((?:M1|M2|…) \d{1,2}, \d{4})` with `re.search` / `re.findall`
and no `re.DOTALL` flag, so `.` matches any character except `'\n'`.
The embedding implements exactly the backtracking search these patterns
perform: try each start position left to right; at a start the literal
marker must match, then the lazy `.*?` extends one non-newline character
at a time until the capture group matches.  Month alternatives are tried
in order with full backtracking into the date tail. -/

/-- The month table of `"%B"`; `strptime` maps a name to its 1-based
position here. -/
def allMonths : List String :=
  ["January", "February", "March", "April", "May", "June", "July",
   "August", "September", "October", "November", "December"]

def monthsSpring : List String := ["January", "February", "March", "April", "May"]

def monthsSummer : List String := ["May", "June", "July", "August"]

def monthsFall : List String := ["August", "September", "October", "November", "December"]

/-- A parsed capture of the date group: month number, day, year. -/
structure PDate where
  month : Nat
  day : Nat
  year : Nat
  deriving Repr, DecidableEq

def isDigitCh (c : Char) : Bool := '0' ≤ c && c ≤ '9'

def digitVal (c : Char) : Nat := c.toNat - '0'.toNat

/-- `, \d{4}` — a comma, a space and exactly four digits; returns the
year and the text after the match. -/
def commaYear : List Char → Option (Nat × List Char)
  | ',' :: ' ' :: a :: b :: c :: d :: rest =>
    if isDigitCh a && isDigitCh b && isDigitCh c && isDigitCh d then
      some (((digitVal a * 10 + digitVal b) * 10 + digitVal c) * 10 + digitVal d, rest)
    else none
  | _ => none

/-- ` \d{1,2}, \d{4}` — the greedy two-digit day is tried first, then the
regex backtracks to one digit. -/
def dayYear : List Char → Option (Nat × Nat × List Char)
  | c1 :: c2 :: rest =>
    if isDigitCh c1 then
      if isDigitCh c2 then
        match commaYear rest with
        | some (y, r) => some (digitVal c1 * 10 + digitVal c2, y, r)
        | none =>
          match commaYear (c2 :: rest) with
          | some (y, r) => some (digitVal c1, y, r)
          | none => none
      else
        match commaYear (c2 :: rest) with
        | some (y, r) => some (digitVal c1, y, r)
        | none => none
    else none
  | _ => none

/-- The capture group `((?:M1|…|Mk) \d{1,2}, \d{4})` matched at the head
of `s`: alternatives tried in order, each continued into the rest of the
group.  Returns the parsed date and the text after the match. -/
def dateMatchAt (months : List String) (s : List Char) : Option (PDate × List Char) :=
  months.findSome? fun m =>
    if m.toList.isPrefixOf s then
      match (s.drop m.toList.length) with
      | ' ' :: rest =>
        match dayYear rest with
        | some (d, y, r) => some (⟨allMonths.indexOf m + 1, d, y⟩, r)
        | none => none
      | _ => none
    else none

/-- The lazy gap `.*?` followed by the date group: starting right after
the marker, try the group, else consume one character — `.` does not
match `'\n'`, so a newline ends the attempt for this marker position. -/
def lazyGapDate (months : List String) : List Char → Option (PDate × List Char)
  | [] => none
  | c :: rest =>
    match dateMatchAt months (c :: rest) with
    | some r => some r
    | none => if c = '\n' then none else lazyGapDate months rest

/-- `re.search(MARKER + ".*?(" + DATE + ")", text)`: the leftmost start
position at which the whole pattern matches wins; the capture is
returned. -/
def searchMarkerDate (marker : List Char) (months : List String) :
    List Char → Option PDate
  | [] => none
  | c :: rest =>
    if marker.isPrefixOf (c :: rest) then
      match lazyGapDate months ((c :: rest).drop marker.length) with
      | some (p, _) => some p
      | none => searchMarkerDate marker months rest
    else searchMarkerDate marker months rest

/-- First alternative of `(?:Holiday|Break|No classes|Campus closed)`
matching at the head of `s` (the alternatives are not prefixes of one
another, so at most one matches). -/
def markerAt (markers : List (List Char)) (s : List Char) : Option (List Char) :=
  markers.find? fun m => m.isPrefixOf s

def holidayMarkers : List (List Char) :=
  ["Holiday".toList, "Break".toList, "No classes".toList, "Campus closed".toList]

/-- `re.findall` over the holiday pattern: scan start positions left to
right; after a full match, resume after its end (non-overlapping
matches).  `fuel` bounds the recursion; every step consumes at least one
character, so `fuel = text.length + 1` never truncates. -/
def findallAux (markers : List (List Char)) (months : List String) :
    Nat → List Char → List PDate
  | 0, _ => []
  | _, [] => []
  | fuel + 1, c :: rest =>
    match markerAt markers (c :: rest) with
    | some mk =>
      match lazyGapDate months ((c :: rest).drop mk.length) with
      | some (p, after) => p :: findallAux markers months fuel after
      | none => findallAux markers months fuel rest
    | none => findallAux markers months fuel rest

def findallMarkerDate (markers : List (List Char)) (months : List String)
    (text : List Char) : List PDate :=
  findallAux markers months (text.length + 1) text

/-- `strptime(s, "%B %d, %Y")` applied to a capture, then `toordinal`. -/
def pdateOrdinal (p : PDate) : Nat := toOrdinal p.year p.month p.day

/-- `"Spring" in text` — Python substring containment. -/
def containsSub (pat : List Char) : List Char → Bool
  | [] => pat.isEmpty
  | c :: rest => pat.isPrefixOf (c :: rest) || containsSub pat rest

/-- The result record of the extractor: `semester, start_date, end_date,
holidays` (dates as ordinals; holidays as the list of distinct parsed
dates — Python collects them into a `set`, of which only membership and
cardinality matter downstream). -/
structure SemesterInfo where
  semester : String
  start_date : Nat
  end_date : Nat
  holidays : List Nat
  deriving Repr, DecidableEq

/-- `extract_semester_dates_and_holidays` (src/app.py lines 13-44) on the
already-extracted page text.  `today` is the ordinal of
`datetime.today()`, a parameter of the model; `timedelta(weeks=16)` is
112 days. -/
def extract (today : Nat) (text : List Char) : SemesterInfo :=
  let cfg :=
    if containsSub "Spring".toList text then
      ("Spring", toOrdinal 2025 1 6, toOrdinal 2025 5 1, monthsSpring)
    else if containsSub "Summer".toList text then
      ("Summer", toOrdinal 2025 5 15, toOrdinal 2025 8 10, monthsSummer)
    else if containsSub "Fall".toList text then
      ("Fall", toOrdinal 2025 8 20, toOrdinal 2025 12 15, monthsFall)
    else
      ("Unknown", today, today + 112, allMonths)
  let start_date :=
    match searchMarkerDate "First day of classes".toList cfg.2.2.2 text with
    | some p => pdateOrdinal p
    | none => cfg.2.1
  let end_date :=
    match searchMarkerDate "End of term".toList cfg.2.2.2 text with
    | some p => pdateOrdinal p
    | none => cfg.2.2.1
  let holidays :=
    ((findallMarkerDate holidayMarkers cfg.2.2.2 text).map pdateOrdinal).dedup
  ⟨cfg.1, start_date, end_date, holidays⟩

/-! ## Concrete inputs used in counterexamples -/

/-- A text whose start-date marker is separated from its date by a line
break. -/
def cexNewlineText : List Char :=
  "Fall\nFirst day of classes\nAugust 25, 2025".toList

/-- A keyword-free text that still contains a matching start-date
marker. -/
def cexUnknownText : List Char :=
  "First day of classes January 5, 2026".toList

/-- A Fall text with two End-of-term marker–date pairs; the second pair
is `End of term December 15, 2025`. -/
def cexTwoEndText : List Char :=
  "Fall End of term August 1, 2025 End of term December 15, 2025".toList

/-! ## Helper lemmas about the generator loop -/

theorem genLoop_of_all_holidays (tz : String) (course : Course)
    (holidays : List Nat) (e : Nat) :
    ∀ n cur, e + 1 - cur ≤ n → (∀ d ∈ occDates e cur, d ∈ holidays) →
      genLoop tz course holidays e cur = ([], []) := by
  intro n
  induction n with
  | zero =>
    intro cur hn _
    rw [genLoop, if_neg (by omega : ¬ cur ≤ e)]
  | succ n ih =>
    intro cur hn hall
    by_cases hle : cur ≤ e
    · have hmem : cur ∈ holidays := by
        apply hall
        rw [occDates]
        simp [hle]
      rw [genLoop, if_pos hle, if_pos hmem]
      exact ih (cur + 7) (by omega) fun d hd => hall d (by rw [occDates]; simp [hle, hd])
    · rw [genLoop, if_neg hle]

theorem genLoop_dates_no_holidays (tz : String) (course : Course)
    (hvalid : course.start_time < course.end_time) (e : Nat) :
    ∀ n cur, e + 1 - cur ≤ n →
      (genLoop tz course [] e cur).1.map Event.begin_date = occDates e cur := by
  intro n
  induction n with
  | zero =>
    intro cur hn
    rw [genLoop, if_neg (by omega : ¬ cur ≤ e), occDates,
      if_neg (by omega : ¬ cur ≤ e)]
    rfl
  | succ n ih =>
    intro cur hn
    by_cases hle : cur ≤ e
    · rw [genLoop, if_pos hle, if_neg (List.not_mem_nil cur),
        if_neg (by omega : ¬ course.end_time ≤ course.start_time),
        occDates, if_pos hle]
      simpa [mkEvent] using ih (cur + 7) (by omega)
    · rw [genLoop, if_neg hle, occDates, if_neg hle]
      rfl

theorem genLoop_events_valid (tz : String) (course : Course)
    (holidays : List Nat) (e : Nat) :
    ∀ n cur, e + 1 - cur ≤ n → ∀ ev ∈ (genLoop tz course holidays e cur).1,
      ev.begin_time < ev.end_time ∧ ev.begin_date = ev.end_date := by
  intro n
  induction n with
  | zero =>
    intro cur hn ev hev
    rw [genLoop, if_neg (by omega : ¬ cur ≤ e)] at hev
    simp at hev
  | succ n ih =>
    intro cur hn ev hev
    by_cases hle : cur ≤ e
    · rw [genLoop, if_pos hle] at hev
      by_cases hhol : cur ∈ holidays
      · rw [if_pos hhol] at hev
        exact ih (cur + 7) (by omega) ev hev
      · rw [if_neg hhol] at hev
        by_cases hbad : course.end_time ≤ course.start_time
        · rw [if_pos hbad] at hev
          exact ih (cur + 7) (by omega) ev hev
        · rw [if_neg hbad] at hev
          rcases List.mem_cons.mp hev with rfl | hev'
          · exact ⟨by simpa [mkEvent] using Nat.lt_of_not_le hbad, rfl⟩
          · exact ih (cur + 7) (by omega) ev hev'
    · rw [genLoop, if_neg hle] at hev
      simp at hev

theorem genLoop_stop (tz : String) (course : Course) (holidays : List Nat)
    (e cur : Nat) (h : e < cur) : genLoop tz course holidays e cur = ([], []) := by
  rw [genLoop, if_neg (by omega : ¬ cur ≤ e)]

theorem joinRuns_of_all_nil {α : Type} (f : α → List Event × List String)
    (l : List α) (h : ∀ x ∈ l, f x = ([], [])) : joinRuns (l.map f) = ([], []) := by
  induction l with
  | nil => rfl
  | cons a l ih =>
    have ha : f a = ([], []) := h a (List.mem_cons_self a l)
    have hrest := ih fun x hx => h x (List.mem_cons_of_mem a hx)
    simp only [joinRuns, List.map_cons, List.foldr_cons] at hrest ⊢
    rw [ha, hrest]
    rfl

/-! ## Claim theorems -/

/-- Claim C1: an occurrence date in `holidays` is skipped (no event, no
warning) and the loop advances exactly 7 days without rescheduling;
consequently a course/weekday pair all of whose occurrence dates are
holidays emits zero events. -/
theorem holiday_skip (tz : String) (course : Course) (holidays : List Nat) :
    (∀ e cur, cur ≤ e → cur ∈ holidays →
      genLoop tz course holidays e cur = genLoop tz course holidays e (cur + 7))
    ∧ (∀ s e day, (∀ d ∈ occDates e (firstOccurrence s day), d ∈ holidays) →
      (genDay tz course holidays s e day).1 = []) := by
  constructor
  · intro e cur hle hmem
    rw [genLoop, if_pos hle, if_pos hmem]
  · intro s e day hall
    rw [genDay, genLoop_of_all_holidays tz course holidays e
      (e + 1 - firstOccurrence s day) (firstOccurrence s day) le_rfl hall]

/-- Witness for C1 at a concrete input: start date 1 (a Monday), end 10,
weekday `WE` (first occurrence 3), holidays {3, 10}. -/
theorem holiday_skip_witness :
    genLoop "US/Eastern" ⟨"CS", "T", "L", ["WE"], 600, 660⟩ [3, 10] 10 3 =
      genLoop "US/Eastern" ⟨"CS", "T", "L", ["WE"], 600, 660⟩ [3, 10] 10 10
    ∧ (genDay "US/Eastern" ⟨"CS", "T", "L", ["WE"], 600, 660⟩ [3, 10] 1 10 "WE").1 = [] := by
  refine ⟨(holiday_skip _ _ _).1 10 3 (by decide) (by decide),
    (holiday_skip "US/Eastern" ⟨"CS", "T", "L", ["WE"], 600, 660⟩ [3, 10]).2 1 10 "WE" ?_⟩
  have h1 : firstOccurrence 1 "WE" = 3 := by decide
  have h2 : occDates 10 3 = [3, 10] := by
    rw [occDates, if_pos (by omega), occDates, if_pos (by omega), occDates,
      if_neg (by omega)]
  rw [h1, h2]
  decide

/-- Claim C2: the first occurrence is `start + ((target - weekday(start)
+ 7) mod 7)`, it is the first date ≥ start with the target weekday;
occurrences then advance by exactly 7 days while ≤ `end_` (inclusive):
with no holidays and a valid time range, the emitted event dates are
exactly `occDates`; first occurrence = `end_` gives exactly one event,
first occurrence = `end_ + 1` gives zero. -/
theorem first_occurrence_and_bounds :
    (∀ s day, firstOccurrence s day =
      s + (weekdayCodes.indexOf day + 7 - pyWeekday s) % 7)
    ∧ (∀ s day, day ∈ weekdayCodes →
      pyWeekday (firstOccurrence s day) = weekdayCodes.indexOf day ∧
      s ≤ firstOccurrence s day ∧ firstOccurrence s day < s + 7)
    ∧ (∀ tz course s e day, course.start_time < course.end_time →
      (genDay tz course [] s e day).1.map Event.begin_date =
        occDates e (firstOccurrence s day))
    ∧ (∀ tz course s e day, course.start_time < course.end_time →
      firstOccurrence s day = e → (genDay tz course [] s e day).1.length = 1)
    ∧ (∀ tz course s e day, course.start_time < course.end_time →
      firstOccurrence s day = e + 1 → (genDay tz course [] s e day).1 = []) := by
  have hdates : ∀ tz course s e day, course.start_time < course.end_time →
      (genDay tz course [] s e day).1.map Event.begin_date =
        occDates e (firstOccurrence s day) := by
    intro tz course s e day hvalid
    rw [genDay]
    exact genLoop_dates_no_holidays tz course hvalid e
      (e + 1 - firstOccurrence s day) (firstOccurrence s day) le_rfl
  refine ⟨fun s day => rfl, ?_, hdates, ?_, ?_⟩
  · intro s day hday
    simp only [weekdayCodes, List.mem_cons, List.not_mem_nil, or_false] at hday
    rcases hday with rfl | rfl | rfl | rfl | rfl <;>
      simp only [firstOccurrence, daysAhead, pyWeekday,
        show weekdayCodes.indexOf "MO" = 0 from by decide,
        show weekdayCodes.indexOf "TU" = 1 from by decide,
        show weekdayCodes.indexOf "WE" = 2 from by decide,
        show weekdayCodes.indexOf "TH" = 3 from by decide,
        show weekdayCodes.indexOf "FR" = 4 from by decide] <;> omega
  · intro tz course s e day hvalid hfirst
    have h := hdates tz course s e day hvalid
    have hocc : occDates e (firstOccurrence s day) = [e] := by
      rw [hfirst, occDates, if_pos le_rfl, occDates, if_neg (by omega)]
    have := congrArg List.length h
    rw [hocc] at this
    simpa using this
  · intro tz course s e day hvalid hfirst
    have h := hdates tz course s e day hvalid
    have hocc : occDates e (firstOccurrence s day) = [] := by
      rw [hfirst, occDates, if_neg (by omega)]
    rw [hocc] at h
    have := congrArg List.length h
    simp only [List.length_map, List.length_nil] at this
    exact List.length_eq_zero.mp this

/-- Witness for C2 at a concrete input: start 1 (Monday), weekday `WE`
(first occurrence 3), valid times. -/
theorem first_occurrence_and_bounds_witness :
    (pyWeekday (firstOccurrence 1 "WE") = weekdayCodes.indexOf "WE" ∧
      1 ≤ firstOccurrence 1 "WE" ∧ firstOccurrence 1 "WE" < 1 + 7)
    ∧ (genDay "UTC" ⟨"CS", "T", "L", ["WE"], 600, 660⟩ [] 1 3 "WE").1.length = 1
    ∧ (genDay "UTC" ⟨"CS", "T", "L", ["WE"], 600, 660⟩ [] 1 2 "WE").1 = [] :=
  ⟨first_occurrence_and_bounds.2.1 1 "WE" (by decide),
    first_occurrence_and_bounds.2.2.2.1 "UTC" ⟨"CS", "T", "L", ["WE"], 600, 660⟩
      1 3 "WE" (by decide) (by decide),
    first_occurrence_and_bounds.2.2.2.2 "UTC" ⟨"CS", "T", "L", ["WE"], 600, 660⟩
      1 2 "WE" (by decide) (by decide)⟩

/-- Claim C3: every emitted event has end strictly after start (and on
the same date); an occurrence whose end time is ≤ its start time emits
the warning naming the course and the weekday name instead of an event,
and the loop advances 7 days and continues (generation is not
aborted). -/
theorem invalid_occurrence_skip (tz : String) (course : Course)
    (holidays : List Nat) :
    (∀ e cur, cur ≤ e → cur ∉ holidays →
      course.end_time ≤ course.start_time →
      (genLoop tz course holidays e cur).1 =
        (genLoop tz course holidays e (cur + 7)).1 ∧
      (genLoop tz course holidays e cur).2 =
        warningMsg course.subject cur ::
          (genLoop tz course holidays e (cur + 7)).2)
    ∧ (∀ e cur ev, ev ∈ (genLoop tz course holidays e cur).1 →
      ev.begin_time < ev.end_time ∧ ev.begin_date = ev.end_date) := by
  constructor
  · intro e cur hle hhol hbad
    rw [genLoop, if_pos hle, if_neg hhol, if_pos hbad]
    exact ⟨rfl, rfl⟩
  · intro e cur ev hev
    exact genLoop_events_valid tz course holidays e (e + 1 - cur) cur le_rfl ev hev

/-- Witness for C3 at a concrete input: a course with end time
780 ≤ start time 840 on occurrence date 1. -/
theorem invalid_occurrence_skip_witness :
    (genLoop "UTC" ⟨"CS", "T", "L", ["MO"], 840, 780⟩ [] 8 1).1 =
      (genLoop "UTC" ⟨"CS", "T", "L", ["MO"], 840, 780⟩ [] 8 8).1 ∧
    (genLoop "UTC" ⟨"CS", "T", "L", ["MO"], 840, 780⟩ [] 8 1).2 =
      warningMsg "CS" 1 ::
        (genLoop "UTC" ⟨"CS", "T", "L", ["MO"], 840, 780⟩ [] 8 8).2 :=
  (invalid_occurrence_skip "UTC" ⟨"CS", "T", "L", ["MO"], 840, 780⟩ []).1
    8 1 (by decide) (by decide) (by decide)

/-- Claim C4: an unknown timezone name makes `generate_ics` fail with an
error carrying exactly the bad identifier, before any event is produced;
a known name never halts generation. -/
theorem timezone_resolution (tzdb : List String) (s e : Nat)
    (cs : List Course) (tz : String) (holidays : List Nat) :
    (tz ∉ tzdb → generate_ics tzdb s e cs tz holidays = .error tz)
    ∧ (tz ∈ tzdb → ∃ out, generate_ics tzdb s e cs tz holidays = .ok out) := by
  constructor
  · intro h
    rw [generate_ics, if_neg h]
  · intro h
    exact ⟨_, by rw [generate_ics, if_pos h]⟩

/-- Witness for C4: `"Nowhere/Zone"` is not in the zone table
`["UTC", "US/Eastern"]`, `"UTC"` is. -/
theorem timezone_resolution_witness :
    generate_ics ["UTC", "US/Eastern"] 1 8 [] "Nowhere/Zone" [] =
      .error "Nowhere/Zone"
    ∧ ∃ out, generate_ics ["UTC", "US/Eastern"] 1 8 [] "UTC" [] = .ok out :=
  ⟨(timezone_resolution ["UTC", "US/Eastern"] 1 8 [] "Nowhere/Zone" []).1
      (by decide),
    (timezone_resolution ["UTC", "US/Eastern"] 1 8 [] "UTC" []).2 (by decide)⟩

/-- Claim C9: when `start_date > end_date`, generation tolerates the
violated range invariant and produces zero events (and zero warnings)
for every course and weekday. -/
theorem empty_range_no_events (tzdb : List String) (s e : Nat)
    (cs : List Course) (tz : String) (holidays : List Nat) :
    e < s → tz ∈ tzdb →
      generate_ics tzdb s e cs tz holidays = .ok ([], []) := by
  intro hlt htz
  rw [generate_ics, if_pos htz]
  congr 1
  apply joinRuns_of_all_nil
  intro course _
  rw [genCourse]
  apply joinRuns_of_all_nil
  intro day _
  rw [genDay]
  exact genLoop_stop tz course holidays e _
    (lt_of_lt_of_le hlt (Nat.le_add_right s _))

/-- Witness for C9: start 9, end 2. -/
theorem empty_range_no_events_witness :
    generate_ics ["UTC"] 9 2 [⟨"CS", "T", "L", ["MO", "FR"], 600, 660⟩]
      "UTC" [5] = .ok ([], []) :=
  empty_range_no_events ["UTC"] 9 2 [⟨"CS", "T", "L", ["MO", "FR"], 600, 660⟩]
    "UTC" [5] (by decide) (by decide)

/-- Claim C10: with a Spring/Summer/Fall classification, a missed marker
search falls back to a fixed date of the year 2025, for every value of
`today` and every document text; only the Unknown kind falls back to
`today` and `today + 112` days. -/
theorem fallback_dates_fixed (today : Nat) (text : List Char) :
    (containsSub "Spring".toList text = true →
      (extract today text).semester = "Spring" ∧
      (searchMarkerDate "First day of classes".toList monthsSpring text = none →
        (extract today text).start_date = toOrdinal 2025 1 6) ∧
      (searchMarkerDate "End of term".toList monthsSpring text = none →
        (extract today text).end_date = toOrdinal 2025 5 1))
    ∧ (containsSub "Spring".toList text = false →
      containsSub "Summer".toList text = true →
      (extract today text).semester = "Summer" ∧
      (searchMarkerDate "First day of classes".toList monthsSummer text = none →
        (extract today text).start_date = toOrdinal 2025 5 15) ∧
      (searchMarkerDate "End of term".toList monthsSummer text = none →
        (extract today text).end_date = toOrdinal 2025 8 10))
    ∧ (containsSub "Spring".toList text = false →
      containsSub "Summer".toList text = false →
      containsSub "Fall".toList text = true →
      (extract today text).semester = "Fall" ∧
      (searchMarkerDate "First day of classes".toList monthsFall text = none →
        (extract today text).start_date = toOrdinal 2025 8 20) ∧
      (searchMarkerDate "End of term".toList monthsFall text = none →
        (extract today text).end_date = toOrdinal 2025 12 15))
    ∧ (containsSub "Spring".toList text = false →
      containsSub "Summer".toList text = false →
      containsSub "Fall".toList text = false →
      (extract today text).semester = "Unknown" ∧
      (searchMarkerDate "First day of classes".toList allMonths text = none →
        (extract today text).start_date = today) ∧
      (searchMarkerDate "End of term".toList allMonths text = none →
        (extract today text).end_date = today + 112)) := by
  refine ⟨fun h1 => ⟨?_, fun hs => ?_, fun he => ?_⟩,
    fun h1 h2 => ⟨?_, fun hs => ?_, fun he => ?_⟩,
    fun h1 h2 h3 => ⟨?_, fun hs => ?_, fun he => ?_⟩,
    fun h1 h2 h3 => ⟨?_, fun hs => ?_, fun he => ?_⟩⟩
  · simp at h1; simp [extract, h1]
  · simp at h1 hs; simp [extract, h1, hs]
  · simp at h1 he; simp [extract, h1, he]
  · simp at h1 h2; simp [extract, h1, h2]
  · simp at h1 h2 hs; simp [extract, h1, h2, hs]
  · simp at h1 h2 he; simp [extract, h1, h2, he]
  · simp at h1 h2 h3; simp [extract, h1, h2, h3]
  · simp at h1 h2 h3 hs; simp [extract, h1, h2, h3, hs]
  · simp at h1 h2 h3 he; simp [extract, h1, h2, h3, he]
  · simp at h1 h2 h3; simp [extract, h1, h2, h3]
  · simp at h1 h2 h3 hs; simp [extract, h1, h2, h3, hs]
  · simp at h1 h2 h3 he; simp [extract, h1, h2, h3, he]

/-- Witness for C10, Spring and Unknown branches at concrete texts whose
marker searches miss. -/
theorem fallback_dates_fixed_witness :
    (extract 3 "Spring term.".toList).start_date = toOrdinal 2025 1 6
    ∧ (extract 3 "Spring term.".toList).end_date = toOrdinal 2025 5 1
    ∧ (extract 3 "no keyword".toList).start_date = 3
    ∧ (extract 3 "no keyword".toList).end_date = 3 + 112 :=
  ⟨((fallback_dates_fixed 3 "Spring term.".toList).1 (by decide)).2.1 (by decide),
    ((fallback_dates_fixed 3 "Spring term.".toList).1 (by decide)).2.2 (by decide),
    ((fallback_dates_fixed 3 "no keyword".toList).2.2.2 (by decide) (by decide)
      (by decide)).2.1 (by decide),
    ((fallback_dates_fixed 3 "no keyword".toList).2.2.2 (by decide) (by decide)
      (by decide)).2.2 (by decide)⟩

/-- Counterexample to claim C7: `cexUnknownText` contains none of the
semester keywords, yet its start date is the parsed marker date
2026-01-05, not `today` (= 100 here): the claimed equalities
`start = today`, `end = today + 16 weeks` do not hold for every
keyword-free text. -/
theorem unknown_start_not_today :
    containsSub "Spring".toList cexUnknownText = false ∧
    containsSub "Summer".toList cexUnknownText = false ∧
    containsSub "Fall".toList cexUnknownText = false ∧
    (extract 100 cexUnknownText).semester = "Unknown" ∧
    (extract 100 cexUnknownText).start_date = toOrdinal 2026 1 5 ∧
    ¬ (extract 100 cexUnknownText).start_date = 100 := by
  decide

/-- Claim C7 as amended: for every keyword-free text the semester is
Unknown, the date searches accept all twelve month names, and the
fallbacks — used when the corresponding search misses — are `today` and
`today + 16` weeks. -/
theorem unknown_kind_all_months (today : Nat) (text : List Char)
    (h1 : containsSub "Spring".toList text = false)
    (h2 : containsSub "Summer".toList text = false)
    (h3 : containsSub "Fall".toList text = false) :
    extract today text =
      ⟨"Unknown",
        (match searchMarkerDate "First day of classes".toList allMonths text with
          | some p => pdateOrdinal p
          | none => today),
        (match searchMarkerDate "End of term".toList allMonths text with
          | some p => pdateOrdinal p
          | none => today + 112),
        ((findallMarkerDate holidayMarkers allMonths text).map pdateOrdinal).dedup⟩ := by
  simp only [extract, h1, h2, h3, Bool.false_eq_true, if_false]

/-- Witness for the amended C7 at `today = 7`, text `"xyz"`. -/
theorem unknown_kind_all_months_witness :
    extract 7 "xyz".toList =
      ⟨"Unknown",
        (match searchMarkerDate "First day of classes".toList allMonths
            "xyz".toList with
          | some p => pdateOrdinal p
          | none => 7),
        (match searchMarkerDate "End of term".toList allMonths "xyz".toList with
          | some p => pdateOrdinal p
          | none => 7 + 112),
        ((findallMarkerDate holidayMarkers allMonths "xyz".toList).map
          pdateOrdinal).dedup⟩ :=
  unknown_kind_all_months 7 "xyz".toList (by decide) (by decide) (by decide)

/-- Counterexample to claim C5: in `cexNewlineText` the start-date
marker is followed by an accepted-month date with only a newline in
between, yet the start date is the Fall fallback 2025-08-20, not the
parsed 2025-08-25: the search does not span line breaks. -/
theorem newline_blocks_search :
    containsSub ("First day of classes".toList ++ '\n' ::
      "August 25, 2025".toList) cexNewlineText = true ∧
    (extract 0 cexNewlineText).start_date = toOrdinal 2025 8 20 ∧
    ¬ (extract 0 cexNewlineText).start_date = toOrdinal 2025 8 25 := by
  decide

/-- Claim C5 as amended: the non-greedy gap between a marker and the
date group matches only non-newline characters (`re` without `DOTALL`):
as soon as the scan reaches a newline it yields no capture for that
marker position, so a marker separated from its date by a line break
contributes no match and the fallback applies. -/
theorem lazy_gap_stops_at_newline (months : List String) (rest : List Char)
    (h : ∀ m ∈ months, m.toList ≠ [] ∧ m.toList.head? ≠ some '\n') :
    lazyGapDate months ('\n' :: rest) = none := by
  have hd : dateMatchAt months ('\n' :: rest) = none := by
    rw [dateMatchAt]
    refine List.findSome?_eq_none_iff.mpr fun m hm => ?_
    have hpre : m.toList.isPrefixOf ('\n' :: rest) = false := by
      rcases hml : m.toList with _ | ⟨c, cs⟩
      · exact absurd hml (h m hm).1
      · have hc : c ≠ '\n' := by
          intro hcc
          exact (h m hm).2 (by rw [hml, hcc]; rfl)
        simp [List.isPrefixOf, hc]
    rw [hpre]
    simp
  rw [lazyGapDate, hd]
  simp

/-- Witness for the amended C5: the Fall month table, remainder
`"August 25, 2025"`. -/
theorem lazy_gap_stops_at_newline_witness :
    lazyGapDate monthsFall ('\n' :: "August 25, 2025".toList) = none :=
  lazy_gap_stops_at_newline monthsFall "August 25, 2025".toList (by decide)

/-- The marker `End of term` has no nontrivial border: no proper
nonempty prefix of it is also a suffix of it, so a match of the marker
cannot begin strictly inside text that continues with another copy of
the marker. -/
theorem eot_no_border :
    ∀ k < 11, 1 ≤ k →
      "End of term".toList.drop k ≠ "End of term".toList.take (11 - k) := by
  decide

/-- If `End of term` is not a prefix of the nonempty `l`, it is not a
prefix of `l ++ End of term ++ r` either: a match starting inside `l`
would have to straddle into the following copy of the marker, which
`eot_no_border` rules out. -/
theorem eot_not_prefix_inside (l r : List Char) (hne : l ≠ [])
    (hb : "End of term".toList.isPrefixOf l = false) :
    "End of term".toList.isPrefixOf
      (l ++ ("End of term".toList ++ r)) = false := by
  cases hx : "End of term".toList.isPrefixOf (l ++ ("End of term".toList ++ r)) with
  | false => rfl
  | true =>
    exfalso
    have hlenM : ("End of term".toList).length = 11 := rfl
    have hp := List.isPrefixOf_iff_prefix.mp hx
    by_cases hl : 11 ≤ l.length
    · have hMl : "End of term".toList <+: l :=
        List.prefix_of_prefix_length_le hp (List.prefix_append l _)
          (by rw [hlenM]; omega)
      have hMb := List.isPrefixOf_iff_prefix.mpr hMl
      rw [hb] at hMb
      exact Bool.false_ne_true hMb
    · have h0 : 0 < l.length := List.length_pos.mpr hne
      obtain ⟨t, ht⟩ := hp
      have hd1 : l.length ≤ ("End of term".toList).length := by rw [hlenM]; omega
      have hdrop := congrArg (List.drop l.length) ht
      rw [List.drop_append_of_le_length hd1, List.drop_left] at hdrop
      have hA : 11 - l.length ≤ ("End of term".toList.drop l.length).length := by
        rw [List.length_drop, hlenM]
      have hB : ("End of term".toList.drop l.length).length ≤ 11 - l.length := by
        rw [List.length_drop, hlenM]
      have hC : 11 - l.length ≤ ("End of term".toList).length := by
        rw [hlenM]; omega
      have htake := congrArg (List.take (11 - l.length)) hdrop
      rw [List.take_append_of_le_length hA, List.take_of_length_le hB,
        List.take_append_of_le_length hC] at htake
      exact eot_no_border l.length (by omega) (by omega) htake

/-- The leftmost-match computation behind amended claim C8: if the
prefix `a` contains no occurrence of `End of term`, the first position
where the marker can match is the displayed one, and the lazy gap then
captures `December 15, 2025`. -/
theorem searchEnd_append (b : List Char) :
    ∀ a : List Char, containsSub "End of term".toList a = false →
      searchMarkerDate "End of term".toList monthsFall
        (a ++ "End of term December 15, 2025".toList ++ b) =
        some ⟨12, 15, 2025⟩ := by
  intro a
  induction a with
  | nil => intro _; rfl
  | cons c a ih =>
    intro h
    rw [containsSub] at h
    obtain ⟨hb, h'⟩ := Bool.or_eq_false_iff.mp h
    rw [List.cons_append, List.cons_append, searchMarkerDate]
    have hpre : ("End of term".toList.isPrefixOf
        (c :: (a ++ "End of term December 15, 2025".toList ++ b))) = false := by
      rw [show (c :: (a ++ "End of term December 15, 2025".toList ++ b))
          = (c :: a) ++ ("End of term".toList ++
            (" December 15, 2025".toList ++ b)) from by
        simp [List.append_assoc]]
      exact eot_not_prefix_inside (c :: a) (" December 15, 2025".toList ++ b)
        (List.cons_ne_nil c a) hb
    rw [hpre]
    simp only [Bool.false_eq_true, if_false]
    exact ih h'

/-- Counterexample to claim C8: `cexTwoEndText` contains `"Fall"` and
the valid pair `End of term December 15, 2025`, but an earlier
`End of term` marker captures `August 1, 2025` first, so the end date is
not December 15. -/
theorem two_end_markers :
    containsSub "Fall".toList cexTwoEndText = true ∧
    containsSub "Spring".toList cexTwoEndText = false ∧
    containsSub "Summer".toList cexTwoEndText = false ∧
    containsSub "End of term December 15, 2025".toList cexTwoEndText = true ∧
    (extract 0 cexTwoEndText).end_date = toOrdinal 2025 8 1 ∧
    ¬ (extract 0 cexTwoEndText).end_date = toOrdinal 2025 12 15 := by
  decide

/-- Claim C8 as amended: for every Fall-classified text whose leftmost
`End of term` occurrence is the one of the pair
`End of term December 15, 2025` — exactly: the prefix `a` contains no
occurrence of the marker, straddling occurrences being impossible by
`eot_no_border` — the end date is 2025-12-15, regardless of whether any
start-date or holiday marker matches elsewhere in the text. -/
theorem fall_end_of_term (today : Nat) (a b : List Char)
    (ha : containsSub "End of term".toList a = false)
    (h1 : containsSub "Spring".toList
      (a ++ "End of term December 15, 2025".toList ++ b) = false)
    (h2 : containsSub "Summer".toList
      (a ++ "End of term December 15, 2025".toList ++ b) = false)
    (h3 : containsSub "Fall".toList
      (a ++ "End of term December 15, 2025".toList ++ b) = true) :
    (extract today (a ++ "End of term December 15, 2025".toList ++ b)).end_date =
      toOrdinal 2025 12 15 := by
  simp only [extract, h1, h2, h3, if_true, Bool.false_eq_true, if_false]
  rw [searchEnd_append b a ha]
  rfl

/-- Witness for the amended C8: `a = "Fall Exam schedule. "` — a prefix
containing `'E'` but no `End of term` occurrence — and `b = ""`. -/
theorem fall_end_of_term_witness :
    (extract 0 ("Fall Exam schedule. ".toList ++
      "End of term December 15, 2025".toList ++ [])).end_date =
      toOrdinal 2025 12 15 :=
  fall_end_of_term 0 "Fall Exam schedule. ".toList [] (by decide) (by decide)
    (by decide) (by decide)

end GtTt
